import Mathlib

/-!
Verification of `recurring_tasks.py` (HabitRPG recurring-task reconciler).

The script's `__main__` block, per stored record, performs:
  load → timestamp/field normalization (lines 66-121) → remote-status
  resolution and lifecycle close-out (lines 123-146) → spawn of a new
  instance when due (lines 148-161) → atomic persistence (lines 163-170).

We embed that per-record cycle shallowly.  Python dictionaries become
structures; a possibly-absent dictionary key becomes an `Option` field;
Python exceptions become an `Except PyErr` result.  `datetime` values
become `Ts`: an absolute instant in seconds (`secs`) together with the
`tzinfo` tag (`tz`), where `none` models an offset-naive datetime,
`some 0` models `datetime.timezone.utc` and `some 1` models the
`pytz.timezone(\x27Europe/London\x27)` object bound to `TZ`.
`replace(tzinfo=utc)` only annotates, never converts, so it leaves
`secs` unchanged.  Aware datetimes compare by absolute instant, i.e. by
`secs`; comparing an offset-naive datetime against an aware one raises
`TypeError` in Python and is modelled as an error.
-/

namespace RecurringTasks

/-- `tzinfo` tag for `datetime.timezone.utc`. -/
def utcTag : Int := 0

/-- `tzinfo` tag for `TZ = timezone(\x27Europe/London\x27)` (line 14). -/
def TZ : Int := 1

/-- A `datetime` value: absolute instant in seconds plus `tzinfo` tag
(`none` = offset-naive). -/
structure Ts where
  secs : Int
  tz : Option Int
deriving DecidableEq

/-- `t.replace(tzinfo=datetime.timezone.utc)`: annotate as UTC without
converting (lines 76-89). -/
def Ts.replaceUtc (t : Ts) : Ts :=
  { t with tz := some utcTag }

/-- `t + datetime.timedelta(seconds=d)`: shifts the instant, keeps the
`tzinfo` (lines 134-136, 144-146). -/
def Ts.addSeconds (t : Ts) (d : Int) : Ts :=
  { t with secs := t.secs + d }

/-- The dictionary stored under the `current` key: a live remote
instance pointer, keys `id` and `created`. -/
structure CurrentInfo where
  id : String
  created : Ts
deriving DecidableEq

/-- The dictionary stored under the `previous` key.  It is produced by
`task_data[\x27previous\x27] = task_data[\x27current\x27]`, so it always has keys
`id` and `created`; the `completed` key is only present when the
completion branch (line 140) added it, hence an `Option`. -/
structure PreviousInfo where
  id : String
  created : Ts
  completed : Option Ts
deriving DecidableEq

/-- A `(min, max)` repeat interval in whole days. -/
structure Interval where
  min : Int
  max : Int
deriving DecidableEq

/-- The dictionary under the `repeat` key: either the legacy flat shape
with keys `min`/`max`, or the current shape with keys `on completion`
and `on deletion` (each possibly `None`). -/
inductive RepeatShape where
  | flat (min max : Int)
  | split (onCompletion onDeletion : Option Interval)
deriving DecidableEq

/-- The in-memory `task_data` dictionary.  Fields whose key may be
absent in a legacy record (`title`, `text`, `notes`, `checklist`) are
wrapped in an outer `Option` denoting key presence; for `notes` the
inner `Option` is YAML `null`. -/
structure TaskData where
  current : Option CurrentInfo
  next : Option Ts
  previous : Option PreviousInfo
  rept : RepeatShape
  title : Option String
  text : Option String
  notes : Option (Option String)
  checklist : Option (List String)
deriving DecidableEq

/-- Python exceptions the cycle can raise. -/
inductive PyErr where
  | keyError
  | typeError
  | httpError (statusCode : Nat)
deriving DecidableEq

/-- Lines 75-79: tag `current[\x27created\x27]` as UTC; `TypeError` from
subscripting `None` is caught and ignored. -/
def fixCurrent (td : TaskData) : TaskData :=
  match td.current with
  | some c => { td with current := some { c with created := c.created.replaceUtc } }
  | none => td

/-- Lines 80-84: tag `next` as UTC; `AttributeError` from `None.replace`
is caught and ignored. -/
def fixNext (td : TaskData) : TaskData :=
  { td with next := td.next.map Ts.replaceUtc }

/-- Lines 85-91: tag `previous[\x27created\x27]` and `previous[\x27completed\x27]`
as UTC.  Only `TypeError` (from `previous` being `None`) is caught; a
`previous` dictionary lacking the `completed` key raises an uncaught
`KeyError`. -/
def fixPrevious (td : TaskData) : Except PyErr TaskData :=
  match td.previous with
  | none => .ok td
  | some p =>
    match p.completed with
    | none => .error .keyError
    | some ct =>
      let p2 : PreviousInfo := ⟨p.id, p.created.replaceUtc, some ct.replaceUtc⟩
      .ok { td with previous := some p2 }

/-- Lines 93-98: default an absent `notes` key to `None`. -/
def fixNotes (td : TaskData) : TaskData :=
  match td.notes with
  | none => { td with notes := some none }
  | some _ => td

/-- Lines 100-107: pop a legacy `text` key into `title` (overwriting any
existing `title`). -/
def fixText (td : TaskData) : TaskData :=
  match td.text with
  | none => td
  | some t => { td with text := none, title := some t }

/-- Lines 109-114: default an absent `checklist` key to empty. -/
def fixChecklist (td : TaskData) : TaskData :=
  match td.checklist with
  | none => { td with checklist := some [] }
  | some _ => td

/-- Lines 116-121: migrate a legacy flat repeat policy to
`on completion = {min, max}`, `on deletion = None`. -/
def fixRepeat (td : TaskData) : TaskData :=
  match td.rept with
  | .flat mn mx => { td with rept := .split (some ⟨mn, mx⟩) none }
  | .split _ _ => td

/-- The whole back-compatibility normalization block, lines 66-121, in
source order. -/
def normalize (td : TaskData) : Except PyErr TaskData :=
  (fixPrevious (fixNext (fixCurrent td))).map
    (fun td => fixRepeat (fixChecklist (fixText (fixNotes td))))

/-- `SECONDS_PER_DAY = 60 * 60 * 24` (line 12). -/
def SECONDS_PER_DAY : Int := 60 * 60 * 24

/-- Outcome of `task.fetch()` (lines 124-127): either the instance data
(`task.completed`, `task.date_completed`) or an
`requests.exceptions.HTTPError` carrying a status code. -/
inductive FetchResult where
  | found (completed : Bool) (dateCompleted : Ts)
  | httpError (statusCode : Nat)
deriving DecidableEq

/-- Lines 123-146: resolve the current instance's remote status and
close it out.  `rand a b` models `random.randint(a, b)`, which returns
an integer in `[a, b]` inclusive; theorems quantify over every `rand`
obeying that contract.  A 404 moves `current` into `previous` (without
adding a `completed` key) and reschedules from `now`; any other HTTP
status is re-raised (line 129).  A completed instance moves `current`
into `previous`, records `completed`, and reschedules from
`task.date_completed`.  Reading `[\x27min\x27]` from an absent policy slot
raises: `KeyError` when the `repeat` dictionary is still the legacy
flat shape (no `on deletion`/`on completion` key), `TypeError` when the
slot is `None`. -/
def closeStep (td : TaskData) (fetch : FetchResult) (now1 : Ts)
    (rand : Int → Int → Int) : Except PyErr TaskData :=
  match td.current with
  | none => .ok td
  | some cur =>
    match fetch with
    | .httpError statusCode =>
      if statusCode ≠ 404 then .error (.httpError statusCode)
      else
        match td.rept with
        | .flat _ _ => .error .keyError
        | .split _ onDeletion =>
          match onDeletion with
          | none => .error .typeError
          | some iv =>
            let minSeconds := iv.min * SECONDS_PER_DAY
            let maxSeconds := iv.max * SECONDS_PER_DAY
            .ok { td with
                  previous := some ⟨cur.id, cur.created, none⟩,
                  current := none,
                  next := some (now1.addSeconds (rand minSeconds maxSeconds)) }
    | .found completed dateCompleted =>
      if completed then
        match td.rept with
        | .flat _ _ => .error .keyError
        | .split onCompletion _ =>
          match onCompletion with
          | none => .error .typeError
          | some iv =>
            let minSeconds := iv.min * SECONDS_PER_DAY
            let maxSeconds := iv.max * SECONDS_PER_DAY
            .ok { td with
                  previous := some ⟨cur.id, cur.created, some dateCompleted⟩,
                  current := none,
                  next := some (dateCompleted.addSeconds (rand minSeconds maxSeconds)) }
      else .ok td

/-- Lines 148-161: when `next` is set and `datetime.now(TZ) >= next`,
create a new remote instance and go live.  The created instance's
`id_code`/`date_created` are the parameters `newId`/`newCreated`.
Comparing an offset-naive `next` against the aware `now` raises
`TypeError`; reading an absent `title`/`notes`/`checklist` key raises
`KeyError`. -/
def spawnStep (td : TaskData) (now2 : Ts) (newId : String)
    (newCreated : Ts) : Except PyErr TaskData :=
  match td.next with
  | none => .ok td
  | some nxt =>
    match nxt.tz with
    | none => .error .typeError
    | some _ =>
      if nxt.secs ≤ now2.secs then
        match td.title, td.notes, td.checklist with
        | some _, some _, some _ =>
          .ok { td with current := some ⟨newId, newCreated⟩, next := none }
        | _, _, _ => .error .keyError
      else .ok td

/-- Lines 123-161: the reconciliation core for one already-normalized
record.  `now1` is the `datetime.now(TZ)` call at line 134, `now2` the
one at line 149 (both aware, tagged with `TZ`). -/
def processTask (td : TaskData) (fetch : FetchResult)
    (rand : Int → Int → Int) (now1 now2 : Int) (newId : String)
    (newCreated : Ts) : Except PyErr TaskData :=
  (closeStep td fetch ⟨now1, some TZ⟩ rand).bind
    (fun td2 => spawnStep td2 ⟨now2, some TZ⟩ newId newCreated)

/-- One full per-record cycle, lines 66-161: normalization followed by
the reconciliation core.  Its `.ok` result is exactly the dictionary
the script then persists (lines 163-170); an `.error` aborts before
anything is written. -/
def runCycle (td : TaskData) (fetch : FetchResult)
    (rand : Int → Int → Int) (now1 now2 : Int) (newId : String)
    (newCreated : Ts) : Except PyErr TaskData :=
  (normalize td).bind
    (fun td1 => processTask td1 fetch rand now1 now2 newId newCreated)

/-- Everything record-specific one iteration of the `for` loop
(lines 59-170) consumes: the loaded record and the external-world
observations made while processing it. -/
structure RecordEnv where
  td : TaskData
  fetch : FetchResult
  now1 : Int
  now2 : Int
  newId : String
  newCreated : Ts

/-- The `for filename in os.listdir(...)` loop, lines 59-170: records
are processed in order; a successful cycle's result is persisted; an
uncaught exception propagates out of the loop (there is no per-record
`try`), so no later record is processed.  Returns the persisted results
in order, plus the escaping exception if any. -/
def runAll (rand : Int → Int → Int) :
    List RecordEnv → List TaskData × Option PyErr
  | [] => ([], none)
  | e :: es =>
    match runCycle e.td e.fetch rand e.now1 e.now2 e.newId e.newCreated with
    | .error err => ([], some err)
    | .ok td2 =>
      let rest := runAll rand es
      (td2 :: rest.1, rest.2)

/-- A directory as a partial map from file names to file contents. -/
def FS : Type := String → Option String

/-- Create or overwrite one file. -/
def writeFile (fs : FS) (path : String) (content : String) : FS :=
  fun p => if p = path then some content else fs p

/-- `os.rename(src, dst)`: `dst` now holds what `src` held, `src` is
gone. -/
def renameFile (fs : FS) (src dst : String) : FS :=
  fun p => if p = dst then fs src else if p = src then none else fs p

/-- Lines 163-170: persist by writing the serialized record to the
`mkstemp` temporary path, then renaming it over the record's path.
`mkstemp` guarantees `tempPath` names a freshly created file, so a
caller knows `fs tempPath = none` beforehand. -/
def persist (fs : FS) (tempPath filePath : String) (content : String) : FS :=
  renameFile (writeFile fs tempPath content) tempPath filePath

/-! ### Helper lemmas -/

lemma fixCurrent_current_isSome (td : TaskData) :
    (fixCurrent td).current.isSome = td.current.isSome := by
  unfold fixCurrent; cases hc : td.current <;> simp [hc]

lemma fixCurrent_next (td : TaskData) : (fixCurrent td).next = td.next := by
  unfold fixCurrent; cases hc : td.current <;> simp [hc]

lemma fixNext_current (td : TaskData) : (fixNext td).current = td.current := by
  unfold fixNext; simp

lemma fixNext_next_isSome (td : TaskData) :
    (fixNext td).next.isSome = td.next.isSome := by
  unfold fixNext; cases td.next <;> simp

lemma fixPrevious_ok_current_next (td td2 : TaskData)
    (h : fixPrevious td = .ok td2) :
    td2.current = td.current ∧ td2.next = td.next := by
  unfold fixPrevious at h
  split at h
  · cases h; exact ⟨rfl, rfl⟩
  · split at h
    · cases h
    · cases h; exact ⟨rfl, rfl⟩

lemma fixNotes_current_next (td : TaskData) :
    (fixNotes td).current = td.current ∧ (fixNotes td).next = td.next := by
  unfold fixNotes; cases td.notes <;> simp

lemma fixText_current_next (td : TaskData) :
    (fixText td).current = td.current ∧ (fixText td).next = td.next := by
  unfold fixText; cases td.text <;> simp

lemma fixChecklist_current_next (td : TaskData) :
    (fixChecklist td).current = td.current ∧ (fixChecklist td).next = td.next := by
  unfold fixChecklist; cases td.checklist <;> simp

lemma fixRepeat_current_next (td : TaskData) :
    (fixRepeat td).current = td.current ∧ (fixRepeat td).next = td.next := by
  unfold fixRepeat; cases td.rept <;> simp

/-- The normalizer never changes whether `current` or `next` is set. -/
lemma normalize_nullness (td td2 : TaskData) (h : normalize td = .ok td2) :
    td2.current.isSome = td.current.isSome ∧
      td2.next.isSome = td.next.isSome := by
  unfold normalize at h
  cases hfp : fixPrevious (fixNext (fixCurrent td)) with
  | error e => rw [hfp] at h; simp [Except.map] at h
  | ok td1 =>
    rw [hfp] at h
    simp only [Except.map] at h
    cases h
    obtain ⟨hc1, hn1⟩ := fixPrevious_ok_current_next _ _ hfp
    rw [fixNext_current] at hc1
    constructor
    · rw [(fixRepeat_current_next _).1, (fixChecklist_current_next _).1,
        (fixText_current_next _).1, (fixNotes_current_next _).1, hc1,
        fixCurrent_current_isSome]
    · rw [(fixRepeat_current_next _).2, (fixChecklist_current_next _).2,
        (fixText_current_next _).2, (fixNotes_current_next _).2, hn1,
        fixNext_next_isSome, fixCurrent_next]

/-- A successful close-out keeps exactly one of `current`/`next` set. -/
lemma closeStep_xor (td : TaskData) (f : FetchResult) (now1 : Ts)
    (rand : Int → Int → Int) (td2 : TaskData)
    (h : closeStep td f now1 rand = .ok td2)
    (hx : td.current.isSome ≠ td.next.isSome) :
    td2.current.isSome ≠ td2.next.isSome := by
  unfold closeStep at h
  split at h
  · cases h; exact hx
  · split at h
    · split at h
      · cases h
      · split at h
        · cases h
        · split at h
          · cases h
          · cases h; simp
    · split at h
      · split at h
        · cases h
        · split at h
          · cases h
          · cases h; simp
      · cases h; exact hx

/-- A successful spawn check keeps exactly one of `current`/`next` set. -/
lemma spawnStep_xor (td : TaskData) (now2 : Ts) (newId : String)
    (newCreated : Ts) (td2 : TaskData)
    (h : spawnStep td now2 newId newCreated = .ok td2)
    (hx : td.current.isSome ≠ td.next.isSome) :
    td2.current.isSome ≠ td2.next.isSome := by
  unfold spawnStep at h
  split at h
  · cases h; exact hx
  · split at h
    · cases h
    · split at h
      · split at h
        · cases h; simp
        · cases h
      · cases h; exact hx

lemma SECONDS_PER_DAY_eq : SECONDS_PER_DAY = 86400 := by
  unfold SECONDS_PER_DAY; norm_num

/-- Completed branch of the close-out, fully computed. -/
lemma closeStep_completed_eq (td : TaskData) (cur : CurrentInfo)
    (iv : Interval) (od : Option Interval) (T now1 : Ts)
    (rand : Int → Int → Int)
    (hcur : td.current = some cur) (hrep : td.rept = .split (some iv) od) :
    closeStep td (.found true T) now1 rand =
      .ok { td with
            previous := some ⟨cur.id, cur.created, some T⟩,
            current := none,
            next := some (T.addSeconds
              (rand (iv.min * SECONDS_PER_DAY) (iv.max * SECONDS_PER_DAY))) } := by
  unfold closeStep
  rw [hcur, hrep]
  rfl

/-- Gone (404) branch of the close-out, fully computed.  Note the
`completed` slot of the new `previous` is `none`. -/
lemma closeStep_gone_eq (td : TaskData) (cur : CurrentInfo)
    (oc : Option Interval) (iv : Interval) (now1 : Ts)
    (rand : Int → Int → Int)
    (hcur : td.current = some cur) (hrep : td.rept = .split oc (some iv)) :
    closeStep td (.httpError 404) now1 rand =
      .ok { td with
            previous := some ⟨cur.id, cur.created, none⟩,
            current := none,
            next := some (now1.addSeconds
              (rand (iv.min * SECONDS_PER_DAY) (iv.max * SECONDS_PER_DAY))) } := by
  unfold closeStep
  rw [hcur, hrep]
  rfl

/-- When `next` is aware and still in the future, the spawn check does
nothing. -/
lemma spawnStep_not_due (td : TaskData) (n now2 : Ts) (tzv : Int)
    (newId : String) (newCreated : Ts)
    (hn : td.next = some n) (htz : n.tz = some tzv)
    (hlt : now2.secs < n.secs) :
    spawnStep td now2 newId newCreated = .ok td := by
  unfold spawnStep
  rw [hn]
  simp [htz, not_le.mpr hlt]

/-- When `next` is aware and due, and the template keys are present,
the spawn step goes live. -/
lemma spawnStep_due (td : TaskData) (n now2 : Ts) (tzv : Int)
    (newId : String) (newCreated : Ts)
    (hn : td.next = some n) (htz : n.tz = some tzv)
    (hle : n.secs ≤ now2.secs)
    (ht : td.title.isSome) (hno : td.notes.isSome)
    (hch : td.checklist.isSome) :
    spawnStep td now2 newId newCreated =
      .ok { td with current := some ⟨newId, newCreated⟩, next := none } := by
  obtain ⟨t, ht2⟩ := Option.isSome_iff_exists.mp ht
  obtain ⟨no2, hno2⟩ := Option.isSome_iff_exists.mp hno
  obtain ⟨ch2, hch2⟩ := Option.isSome_iff_exists.mp hch
  unfold spawnStep
  rw [hn]
  simp [htz, hle, ht2, hno2, hch2]

/-! ### Claim theorems -/

/-- C1: for every record that at the start of a cycle has exactly one
of `current`/`next` non-null, after the reconciliation cycle completes
without error, exactly one of `current` and `next` is non-null in the
persisted record. -/
theorem cycle_preserves_current_next_exclusivity
    (td td2 : TaskData) (fetch : FetchResult) (rand : Int → Int → Int)
    (now1 now2 : Int) (newId : String) (newCreated : Ts)
    (hstart : td.current.isSome ≠ td.next.isSome)
    (hrun : runCycle td fetch rand now1 now2 newId newCreated = .ok td2) :
    td2.current.isSome ≠ td2.next.isSome := by
  unfold runCycle at hrun
  cases hn : normalize td with
  | error e => rw [hn] at hrun; cases hrun
  | ok td1 =>
    rw [hn] at hrun
    simp only [Except.bind] at hrun
    unfold processTask at hrun
    cases hcs : closeStep td1 fetch ⟨now1, some TZ⟩ rand with
    | error e => rw [hcs] at hrun; cases hrun
    | ok tdc =>
      rw [hcs] at hrun
      simp only [Except.bind] at hrun
      obtain ⟨h1, h2⟩ := normalize_nullness td td1 hn
      have hx1 : td1.current.isSome ≠ td1.next.isSome := by
        rw [h1, h2]; exact hstart
      exact spawnStep_xor _ _ _ _ _ hrun (closeStep_xor _ _ _ _ _ hcs hx1)

/-- A live record already in normal form, with a still-open remote
instance: the cycle leaves it unchanged. -/
def wLive : TaskData :=
  { current := some ⟨"id1", ⟨100, some 0⟩⟩, next := none, previous := none,
    rept := .split (some ⟨1, 3⟩) (some ⟨0, 0⟩), title := some "t",
    text := none, notes := some none, checklist := some [] }

theorem cycle_preserves_current_next_exclusivity_witness :
    wLive.current.isSome ≠ wLive.next.isSome :=
  cycle_preserves_current_next_exclusivity wLive wLive
    (.found false ⟨0, some utcTag⟩) (fun a _ => a) 0 0 "n" ⟨0, some utcTag⟩
    (by decide) (by rfl)

/-- C3: for every valid repeat interval `(min, max)` with
`0 ≤ min ≤ max`, whenever a reschedule is computed (on Completed with
anchor = `completedAt`, or on Gone with anchor = the observation time
`now`), the resulting `next` lies within
`[anchor + min*86400, anchor + max*86400]` seconds inclusive, for every
possible random draw. -/
theorem reschedule_within_interval_bounds
    (td : TaskData) (cur : CurrentInfo) (fetch : FetchResult)
    (now1 anchor T : Ts) (rand : Int → Int → Int) (mn mx : Int)
    (oc od : Option Interval)
    (hcur : td.current = some cur)
    (h0 : 0 ≤ mn) (hmm : mn ≤ mx)
    (hrand : ∀ a b : Int, a ≤ b → a ≤ rand a b ∧ rand a b ≤ b)
    (hbranch :
      (fetch = .found true T ∧ td.rept = .split (some ⟨mn, mx⟩) od ∧
        anchor = T) ∨
      (fetch = .httpError 404 ∧ td.rept = .split oc (some ⟨mn, mx⟩) ∧
        anchor = now1)) :
    ∃ td2, closeStep td fetch now1 rand = .ok td2 ∧
      ∃ n, td2.next = some n ∧
        anchor.secs + mn * 86400 ≤ n.secs ∧
        n.secs ≤ anchor.secs + mx * 86400 := by
  have hms : mn * SECONDS_PER_DAY ≤ mx * SECONDS_PER_DAY := by
    rw [SECONDS_PER_DAY_eq]; omega
  obtain ⟨hr1, hr2⟩ := hrand (mn * SECONDS_PER_DAY) (mx * SECONDS_PER_DAY) hms
  have key : ∃ td2, closeStep td fetch now1 rand = .ok td2 ∧
      td2.next = some (anchor.addSeconds
        (rand (mn * SECONDS_PER_DAY) (mx * SECONDS_PER_DAY))) := by
    rcases hbranch with ⟨hf, hrep, ha⟩ | ⟨hf, hrep, ha⟩
    · subst hf; subst ha
      exact ⟨_, closeStep_completed_eq td cur ⟨mn, mx⟩ od anchor now1 rand
        hcur hrep, rfl⟩
    · subst hf; subst ha
      exact ⟨_, closeStep_gone_eq td cur oc ⟨mn, mx⟩ anchor rand
        hcur hrep, rfl⟩
  obtain ⟨td2, hstep, hnext⟩ := key
  refine ⟨td2, hstep, _, hnext, ?_, ?_⟩
  · show anchor.secs + mn * 86400 ≤
      anchor.secs + rand (mn * SECONDS_PER_DAY) (mx * SECONDS_PER_DAY)
    generalize rand (mn * SECONDS_PER_DAY) (mx * SECONDS_PER_DAY) = d at hr1
    rw [SECONDS_PER_DAY_eq] at hr1
    omega
  · show anchor.secs + rand (mn * SECONDS_PER_DAY) (mx * SECONDS_PER_DAY) ≤
      anchor.secs + mx * 86400
    generalize rand (mn * SECONDS_PER_DAY) (mx * SECONDS_PER_DAY) = d at hr2
    rw [SECONDS_PER_DAY_eq] at hr2
    omega

theorem reschedule_within_interval_bounds_witness :
    ∃ td2, closeStep wLive (.found true ⟨0, some utcTag⟩) ⟨50, some TZ⟩
        (fun a _ => a) = .ok td2 ∧
      ∃ n, td2.next = some n ∧
        (⟨0, some utcTag⟩ : Ts).secs + 1 * 86400 ≤ n.secs ∧
        n.secs ≤ (⟨0, some utcTag⟩ : Ts).secs + 3 * 86400 :=
  reschedule_within_interval_bounds wLive ⟨"id1", ⟨100, some 0⟩⟩
    (.found true ⟨0, some utcTag⟩) ⟨50, some TZ⟩ ⟨0, some utcTag⟩
    ⟨0, some utcTag⟩ (fun a _ => a) 1 3 none (some ⟨0, 0⟩)
    (by rfl) (by norm_num) (by norm_num)
    (fun a b h => ⟨le_refl a, h⟩) (Or.inl ⟨rfl, rfl, rfl⟩)

/-- C2 is false as stated: with `current` set, outcome
`Completed(T = 0)`, `onCompletion = (min 1, max 3)` and a legal draw of
exactly `86400` seconds, a cycle observed at `now = 1000000` ends with
`current` set to the freshly spawned instance and `next = null`,
because the same cycle immediately re-spawns once the computed `next`
is not in the future. -/
theorem scenario_a_counterexample :
    ((86400 : Int) ≤ (fun (a : Int) (_ : Int) => a) 86400 259200 ∧
      ((fun (a : Int) (_ : Int) => a) 86400 259200 : Int) ≤ 259200) ∧
    (runCycle wLive (.found true ⟨0, some utcTag⟩) (fun a _ => a)
        1000000 1000000 "new1" ⟨999999, some utcTag⟩).map
      (fun r => (r.current, r.next)) =
      .ok (some ⟨"new1", ⟨999999, some utcTag⟩⟩, none) :=
  ⟨⟨by norm_num, by norm_num⟩, by rfl⟩

/-- C2 (amended): for every record with `current` set whose Resolver
outcome is Completed with completion time `T`, and
`onCompletion = (min 1, max 3)`, provided the spawn check's observation
time `now2` still precedes the freshly computed `next`, the cycle ends
with `previous.completed = T`, `current = null`, and `next` in
`[T + 86400, T + 259200]` seconds. -/
theorem scenario_a_amended
    (td : TaskData) (cur : CurrentInfo) (od : Option Interval) (T : Ts)
    (rand : Int → Int → Int) (now1 now2 : Int) (newId : String)
    (newCreated : Ts)
    (hcur : td.current = some cur)
    (hrep : td.rept = .split (some ⟨1, 3⟩) od)
    (hT : T.tz.isSome)
    (hrand : ∀ a b : Int, a ≤ b → a ≤ rand a b ∧ rand a b ≤ b)
    (hfuture : now2 < T.secs +
      rand (1 * SECONDS_PER_DAY) (3 * SECONDS_PER_DAY)) :
    ∃ td2, processTask td (.found true T) rand now1 now2 newId newCreated =
        .ok td2 ∧
      (∃ p, td2.previous = some p ∧ p.completed = some T) ∧
      td2.current = none ∧
      ∃ n, td2.next = some n ∧
        T.secs + 86400 ≤ n.secs ∧ n.secs ≤ T.secs + 259200 := by
  obtain ⟨tzv, htzv⟩ := Option.isSome_iff_exists.mp hT
  have hms : (1 : Int) * SECONDS_PER_DAY ≤ 3 * SECONDS_PER_DAY := by
    rw [SECONDS_PER_DAY_eq]; norm_num
  obtain ⟨hr1, hr2⟩ := hrand (1 * SECONDS_PER_DAY) (3 * SECONDS_PER_DAY) hms
  unfold processTask
  rw [closeStep_completed_eq td cur ⟨1, 3⟩ od T ⟨now1, some TZ⟩ rand hcur hrep]
  simp only [Except.bind]
  refine ⟨_, spawnStep_not_due _ _ _ tzv _ _ rfl htzv hfuture, ⟨_, rfl, rfl⟩,
    rfl, _, rfl, ?_, ?_⟩
  · show T.secs + 86400 ≤
      T.secs + rand (1 * SECONDS_PER_DAY) (3 * SECONDS_PER_DAY)
    generalize rand (1 * SECONDS_PER_DAY) (3 * SECONDS_PER_DAY) = d at hr1
    rw [SECONDS_PER_DAY_eq] at hr1
    omega
  · show T.secs + rand (1 * SECONDS_PER_DAY) (3 * SECONDS_PER_DAY) ≤
      T.secs + 259200
    generalize rand (1 * SECONDS_PER_DAY) (3 * SECONDS_PER_DAY) = d at hr2
    rw [SECONDS_PER_DAY_eq] at hr2
    omega

theorem scenario_a_amended_witness :
    ∃ td2, processTask wLive (.found true ⟨0, some utcTag⟩) (fun a _ => a)
        0 0 "new1" ⟨999999, some utcTag⟩ = .ok td2 ∧
      (∃ p, td2.previous = some p ∧
        p.completed = some (⟨0, some utcTag⟩ : Ts)) ∧
      td2.current = none ∧
      ∃ n, td2.next = some n ∧
        (⟨0, some utcTag⟩ : Ts).secs + 86400 ≤ n.secs ∧
        n.secs ≤ (⟨0, some utcTag⟩ : Ts).secs + 259200 :=
  scenario_a_amended wLive ⟨"id1", ⟨100, some 0⟩⟩ (some ⟨0, 0⟩)
    ⟨0, some utcTag⟩ (fun a _ => a) 0 0 "new1" ⟨999999, some utcTag⟩
    (by rfl) (by rfl) (by rfl) (fun a b h => ⟨le_refl a, h⟩)
    (by norm_num [SECONDS_PER_DAY])

/-- C10: a single reconciliation cycle can perform two lifecycle
transitions back-to-back: for every Live record whose instance is
Completed or Gone and whose freshly computed `next` is not after the
spawn check's `now`, the same cycle immediately spawns a new remote
instance, so the record is persisted Live again (`current` set, `next`
null) without an intervening dormant run. -/
theorem double_transition_in_one_cycle
    (td : TaskData) (cur : CurrentInfo) (iv : Interval)
    (oc od : Option Interval) (fetch : FetchResult) (T anchor : Ts)
    (rand : Int → Int → Int) (now1 now2 : Int) (newId : String)
    (newCreated : Ts)
    (hcur : td.current = some cur)
    (hbranch :
      (fetch = .found true T ∧ td.rept = .split (some iv) od ∧
        anchor = T) ∨
      (fetch = .httpError 404 ∧ td.rept = .split oc (some iv) ∧
        anchor = ⟨now1, some TZ⟩))
    (htz : anchor.tz.isSome)
    (htitle : td.title.isSome) (hnotes : td.notes.isSome)
    (hcheck : td.checklist.isSome)
    (hdue : anchor.secs +
      rand (iv.min * SECONDS_PER_DAY) (iv.max * SECONDS_PER_DAY) ≤ now2) :
    ∃ td2, processTask td fetch rand now1 now2 newId newCreated = .ok td2 ∧
      td2.current = some ⟨newId, newCreated⟩ ∧ td2.next = none := by
  obtain ⟨tzv, htzv⟩ := Option.isSome_iff_exists.mp htz
  unfold processTask
  rcases hbranch with ⟨hf, hrep, ha⟩ | ⟨hf, hrep, ha⟩
  · subst hf; subst ha
    rw [closeStep_completed_eq td cur iv od anchor ⟨now1, some TZ⟩ rand
      hcur hrep]
    simp only [Except.bind]
    exact ⟨_, spawnStep_due _ _ _ tzv _ _ rfl htzv hdue htitle hnotes hcheck,
      rfl, rfl⟩
  · subst hf; subst ha
    rw [closeStep_gone_eq td cur oc iv ⟨now1, some TZ⟩ rand hcur hrep]
    simp only [Except.bind]
    exact ⟨_, spawnStep_due _ _ _ tzv _ _ rfl htzv hdue htitle hnotes hcheck,
      rfl, rfl⟩

theorem double_transition_in_one_cycle_witness :
    ∃ td2, processTask wLive (.found true ⟨0, some utcTag⟩) (fun a _ => a)
        1000000 1000000 "new1" ⟨999999, some utcTag⟩ = .ok td2 ∧
      td2.current = some ⟨"new1", ⟨999999, some utcTag⟩⟩ ∧
      td2.next = none :=
  double_transition_in_one_cycle wLive ⟨"id1", ⟨100, some 0⟩⟩ ⟨1, 3⟩
    none (some ⟨0, 0⟩) (.found true ⟨0, some utcTag⟩) ⟨0, some utcTag⟩
    ⟨0, some utcTag⟩ (fun a _ => a) 1000000 1000000 "new1"
    ⟨999999, some utcTag⟩ (by rfl) (Or.inl ⟨rfl, rfl, rfl⟩) (by rfl)
    (by rfl) (by rfl) (by rfl) (by norm_num [SECONDS_PER_DAY])

/-- A record with both `current` and `next` null, already in normal
form. -/
def wBothNull : TaskData :=
  { current := none, next := none, previous := none,
    rept := .split (some ⟨1, 3⟩) (some ⟨0, 0⟩), title := some "t",
    text := none, notes := some none, checklist := some [] }

/-- C9 is false as stated: a record with both `current` and `next` null
goes through the whole cycle without any error and is persisted
unchanged — the reconciliation core does not treat it as fatal. -/
theorem null_null_counterexample :
    runCycle wBothNull (.httpError 500) (fun a _ => a) 0 0 "n"
      ⟨0, some utcTag⟩ = .ok wBothNull := by rfl

/-- C9 (amended): for every record encountered with both `current` and
`next` null that the normalizer accepts, the reconciliation core
processes it without error and persists it unchanged (up to
normalization); it is not treated as an error. -/
theorem null_null_processed_and_persisted_unchanged
    (td td1 : TaskData) (fetch : FetchResult) (rand : Int → Int → Int)
    (now1 now2 : Int) (newId : String) (newCreated : Ts)
    (hc : td.current = none) (hn : td.next = none)
    (hnorm : normalize td = .ok td1) :
    runCycle td fetch rand now1 now2 newId newCreated = .ok td1 := by
  obtain ⟨h1, h2⟩ := normalize_nullness td td1 hnorm
  rw [hc] at h1
  rw [hn] at h2
  have hc1 : td1.current = none := by
    cases hcc : td1.current
    · rfl
    · rw [hcc] at h1; simp at h1
  have hn1 : td1.next = none := by
    cases hnn : td1.next
    · rfl
    · rw [hnn] at h2; simp at h2
  have hclose : closeStep td1 fetch ⟨now1, some TZ⟩ rand = .ok td1 := by
    unfold closeStep; rw [hc1]
  have hspawn : spawnStep td1 ⟨now2, some TZ⟩ newId newCreated = .ok td1 := by
    unfold spawnStep; rw [hn1]
  unfold runCycle
  rw [hnorm]
  simp only [Except.bind]
  unfold processTask
  rw [hclose]
  simp only [Except.bind]
  exact hspawn

theorem null_null_processed_and_persisted_unchanged_witness :
    runCycle wBothNull (.found false ⟨7, some utcTag⟩) (fun a _ => a)
      3 4 "m" ⟨5, some utcTag⟩ = .ok wBothNull :=
  null_null_processed_and_persisted_unchanged wBothNull wBothNull
    (.found false ⟨7, some utcTag⟩) (fun a _ => a) 3 4 "m"
    ⟨5, some utcTag⟩ (by rfl) (by rfl) (by rfl)

/-- C6, evaluated at the failing input: the record is live, the remote
reports 404 at observation time `now = 5000`, and `onDeletion` is
`(min 0, max 0)`.  The code moves `current` into `previous` but leaves
the `completed` slot empty — the observation time is never recorded —
and the normalizer then rejects the very record this branch persists,
raising `KeyError` on the next run. -/
theorem gone_branch_no_completedAt :
    (closeStep wLive (.httpError 404) ⟨5000, some TZ⟩ (fun a _ => a)).map
        (fun r => (r.previous, r.current, r.next)) =
      .ok (some ⟨"id1", ⟨100, some utcTag⟩, none⟩, none,
        some ⟨5000, some TZ⟩) ∧
    normalize { wLive with
                previous := some ⟨"id1", ⟨100, some utcTag⟩, none⟩,
                current := none,
                next := some ⟨5000, some TZ⟩ } = .error .keyError :=
  ⟨rfl, rfl⟩

/-- The set of delays `randint(min * SECONDS_PER_DAY,
max * SECONDS_PER_DAY)` can produce (lines 132-136 and 142-146): any
integer number of seconds in the closed range. -/
def possibleDelay (mn mx d : Int) : Prop :=
  mn * SECONDS_PER_DAY ≤ d ∧ d ≤ mx * SECONDS_PER_DAY

instance (mn mx d : Int) : Decidable (possibleDelay mn mx d) :=
  inferInstanceAs
    (Decidable (mn * SECONDS_PER_DAY ≤ d ∧ d ≤ mx * SECONDS_PER_DAY))

/-- A live record whose `onDeletion` policy is `(min 0, max 1)`. -/
def wGoneWide : TaskData :=
  { wLive with rept := .split (some ⟨1, 3⟩) (some ⟨0, 1⟩) }

/-- C4 is false as stated: for the `(min 0, max 1)` policy a delay of
one second is a legal `randint` draw — the draw ranges over seconds,
not whole days — a cycle realizes it (`next = now + 1`), and 1 is not a
whole-day multiple. -/
theorem delay_whole_days_counterexample :
    possibleDelay 0 1 1 ∧ ¬((1 : Int) % 86400 = 0) ∧
    (closeStep wGoneWide (.httpError 404) ⟨0, some TZ⟩
        (fun a _ => a + 1)).map (fun r => r.next) =
      .ok (some ⟨1, some TZ⟩) :=
  ⟨by decide, by decide, rfl⟩

/-- C4 (amended): the random reschedule delay is drawn uniformly over
the closed integer range of seconds `[min*86400, max*86400]` and added
to the anchor; every integer second count in that range is realized by
some legal draw, so delays are bounded by whole-day endpoints but need
not be whole-day multiples. -/
theorem delay_drawn_over_seconds_range
    (td : TaskData) (cur : CurrentInfo) (oc : Option Interval)
    (mn mx d : Int) (now1 : Ts)
    (hcur : td.current = some cur)
    (hrep : td.rept = .split oc (some ⟨mn, mx⟩))
    (hd : possibleDelay mn mx d) :
    ∃ rand : Int → Int → Int,
      (∀ a b : Int, a ≤ b → a ≤ rand a b ∧ rand a b ≤ b) ∧
      ∃ td2, closeStep td (.httpError 404) now1 rand = .ok td2 ∧
        td2.next = some (now1.addSeconds d) := by
  obtain ⟨hd1, hd2⟩ := hd
  refine ⟨fun a b => if a ≤ d ∧ d ≤ b then d else a, ?_, ?_⟩
  · intro a b hab
    show a ≤ (if a ≤ d ∧ d ≤ b then d else a) ∧
      (if a ≤ d ∧ d ≤ b then d else a) ≤ b
    by_cases hc : a ≤ d ∧ d ≤ b
    · rw [if_pos hc]; exact ⟨hc.1, hc.2⟩
    · rw [if_neg hc]; exact ⟨le_refl a, hab⟩
  · refine ⟨_, closeStep_gone_eq td cur oc ⟨mn, mx⟩ now1 _ hcur hrep, ?_⟩
    show some (now1.addSeconds
        (if mn * SECONDS_PER_DAY ≤ d ∧ d ≤ mx * SECONDS_PER_DAY then d
         else mn * SECONDS_PER_DAY)) =
      some (now1.addSeconds d)
    rw [if_pos ⟨hd1, hd2⟩]

theorem delay_drawn_over_seconds_range_witness :
    ∃ rand : Int → Int → Int,
      (∀ a b : Int, a ≤ b → a ≤ rand a b ∧ rand a b ≤ b) ∧
      ∃ td2, closeStep wGoneWide (.httpError 404) ⟨0, some TZ⟩ rand =
          .ok td2 ∧
        td2.next = some ((⟨0, some TZ⟩ : Ts).addSeconds 1) :=
  delay_drawn_over_seconds_range wGoneWide ⟨"id1", ⟨100, some 0⟩⟩
    (some ⟨1, 3⟩) 0 1 1 ⟨0, some TZ⟩ (by rfl) (by rfl) (by decide)

lemma runAll_cons_ok (rand : Int → Int → Int) (e : RecordEnv)
    (es : List RecordEnv) (td2 : TaskData)
    (h : runCycle e.td e.fetch rand e.now1 e.now2 e.newId e.newCreated =
      .ok td2) :
    runAll rand (e :: es) =
      (td2 :: (runAll rand es).1, (runAll rand es).2) := by
  conv_lhs => unfold runAll
  simp only [h]

lemma runAll_cons_error (rand : Int → Int → Int) (e : RecordEnv)
    (es : List RecordEnv) (err : PyErr)
    (h : runCycle e.td e.fetch rand e.now1 e.now2 e.newId e.newCreated =
      .error err) :
    runAll rand (e :: es) = ([], some err) := by
  conv_lhs => unfold runAll
  simp only [h]

/-- Concatenating runs: a run over `pre ++ rest` first reproduces an
error-free run over `pre`, then continues with `rest`. -/
lemma runAll_append (rand : Int → Int → Int) (pre rest : List RecordEnv)
    (outs : List TaskData) (hpre : runAll rand pre = (outs, none)) :
    runAll rand (pre ++ rest) =
      (outs ++ (runAll rand rest).1, (runAll rand rest).2) := by
  induction pre generalizing outs with
  | nil =>
    unfold runAll at hpre
    rw [Prod.mk.injEq] at hpre
    obtain ⟨h1, _⟩ := hpre
    subst h1
    simp
  | cons e es ih =>
    rw [List.cons_append]
    cases hres : runCycle e.td e.fetch rand e.now1 e.now2 e.newId
        e.newCreated with
    | error err =>
      rw [runAll_cons_error rand e es err hres] at hpre
      simp at hpre
    | ok td2 =>
      rw [runAll_cons_ok rand e es td2 hres] at hpre
      rw [Prod.mk.injEq] at hpre
      obtain ⟨h1, h2⟩ := hpre
      have hes : runAll rand es = ((runAll rand es).1, none) := by
        rw [← h2]
      rw [runAll_cons_ok rand e (es ++ rest) td2 hres]
      rw [ih (runAll rand es).1 hes]
      rw [← h1]
      simp

/-- A record environment whose remote fetch fails with a non-404 HTTP
error. -/
def wBadEnv : RecordEnv :=
  ⟨wLive, .httpError 500, 0, 0, "n", ⟨0, some utcTag⟩⟩

/-- A record environment that processes successfully (instance still
open). -/
def wGoodEnv : RecordEnv :=
  ⟨wLive, .found false ⟨0, some utcTag⟩, 0, 0, "n", ⟨0, some utcTag⟩⟩

/-- C5 is false as stated: with two records where the first fails with
a propagated non-404 error (HTTP 500), the run processes nothing
further — the second record, which on its own processes fine, is never
reached. -/
theorem failure_isolation_counterexample :
    runAll (fun a _ => a) [wBadEnv, wGoodEnv] =
      ([], some (.httpError 500)) ∧
    runAll (fun a _ => a) [wGoodEnv] = ([wLive], none) :=
  ⟨rfl, rfl⟩

/-- C5 (amended): a failure while processing one record aborts the
entire remaining run: records processed before it keep their persisted
results, the failing record is not persisted, and no record after it
(in listing order) is processed. -/
theorem record_failure_aborts_whole_run
    (rand : Int → Int → Int) (pre rest : List RecordEnv) (e : RecordEnv)
    (outs : List TaskData) (err : PyErr)
    (hpre : runAll rand pre = (outs, none))
    (he : runCycle e.td e.fetch rand e.now1 e.now2 e.newId e.newCreated =
      .error err) :
    runAll rand (pre ++ e :: rest) = (outs, some err) := by
  rw [runAll_append rand pre (e :: rest) outs hpre]
  rw [runAll_cons_error rand e rest err he]
  simp

theorem record_failure_aborts_whole_run_witness :
    runAll (fun a _ => a) [wGoodEnv, wBadEnv, wGoodEnv] =
      ([wLive], some (.httpError 500)) :=
  record_failure_aborts_whole_run (fun a _ => a) [wGoodEnv] [wGoodEnv]
    wBadEnv [wLive] (.httpError 500) (by rfl) (by rfl)

/-- C7: persistence is atomic — the record is written to a temporary
file freshly created by `mkstemp` (so its path did not exist before)
and then renamed over the canonical path; if the cycle is interrupted
after the temporary-file write but before the rename, the original
record file is byte-identical to its content before the cycle. -/
theorem persist_interrupted_preserves_original
    (fs : FS) (tempPath filePath content orig : String)
    (horig : fs filePath = some orig)
    (hfresh : fs tempPath = none) :
    writeFile fs tempPath content filePath = some orig := by
  unfold writeFile
  have hne : filePath ≠ tempPath := by
    intro h
    rw [h] at horig
    rw [horig] at hfresh
    cases hfresh
  rw [if_neg hne]
  exact horig

/-- A directory holding one record file. -/
def wFs : FS :=
  fun p => if p = "mytask" then some "old-content" else none

theorem persist_interrupted_preserves_original_witness :
    writeFile wFs ".tmpXYZ" "new-content" "mytask" = some "old-content" :=
  persist_interrupted_preserves_original wFs ".tmpXYZ" "mytask"
    "new-content" "old-content" (by rfl) (by rfl)

/-- A record in the current, fully normalized shape: all stored
timestamps tagged UTC, `previous` (when present) carrying a tagged
`completed`, `notes` and `checklist` keys present, no legacy `text`
key, and a split repeat policy. -/
def NormalForm (td : TaskData) : Prop :=
  (∀ c, td.current = some c → c.created.tz = some utcTag) ∧
  (∀ n, td.next = some n → n.tz = some utcTag) ∧
  (∀ p, td.previous = some p → p.created.tz = some utcTag ∧
    ∃ ct, p.completed = some ct ∧ ct.tz = some utcTag) ∧
  td.notes.isSome = true ∧
  td.text = none ∧
  td.checklist.isSome = true ∧
  ∃ a b, td.rept = .split a b

lemma fixCurrent_tagged (td : TaskData) (c : CurrentInfo)
    (h : (fixCurrent td).current = some c) : c.created.tz = some utcTag := by
  unfold fixCurrent at h
  cases hc : td.current with
  | none =>
    rw [hc] at h
    simp at h
    rw [h] at hc
    exact Option.noConfusion hc
  | some c0 =>
    rw [hc] at h
    simp at h
    rw [← h]
    rfl

lemma fixNext_tagged (td : TaskData) (n : Ts)
    (h : (fixNext td).next = some n) : n.tz = some utcTag := by
  unfold fixNext at h
  cases hn : td.next with
  | none => rw [hn] at h; simp at h
  | some n0 =>
    rw [hn] at h
    simp at h
    rw [← h]
    rfl

lemma fixPrevious_ok_previous (td td1 : TaskData)
    (h : fixPrevious td = .ok td1) (p : PreviousInfo)
    (hp : td1.previous = some p) :
    p.created.tz = some utcTag ∧
      ∃ ct, p.completed = some ct ∧ ct.tz = some utcTag := by
  unfold fixPrevious at h
  split at h
  · rename_i hnone
    cases h
    rw [hnone] at hp
    cases hp
  · split at h
    · cases h
    · rename_i p0 hp0 ct hct
      cases h
      simp at hp
      rw [← hp]
      exact ⟨rfl, ct.replaceUtc, rfl, rfl⟩

lemma fixNotes_spec (td : TaskData) :
    (fixNotes td).current = td.current ∧ (fixNotes td).next = td.next ∧
    (fixNotes td).previous = td.previous ∧ (fixNotes td).rept = td.rept ∧
    (fixNotes td).text = td.text ∧
    (fixNotes td).checklist = td.checklist ∧
    (fixNotes td).notes.isSome = true := by
  unfold fixNotes
  cases hn : td.notes <;> simp [hn]

lemma fixText_spec (td : TaskData) :
    (fixText td).current = td.current ∧ (fixText td).next = td.next ∧
    (fixText td).previous = td.previous ∧ (fixText td).rept = td.rept ∧
    (fixText td).notes = td.notes ∧
    (fixText td).checklist = td.checklist ∧
    (fixText td).text = none := by
  unfold fixText
  cases ht : td.text <;> simp [ht]

lemma fixChecklist_spec (td : TaskData) :
    (fixChecklist td).current = td.current ∧
    (fixChecklist td).next = td.next ∧
    (fixChecklist td).previous = td.previous ∧
    (fixChecklist td).rept = td.rept ∧
    (fixChecklist td).notes = td.notes ∧
    (fixChecklist td).text = td.text ∧
    (fixChecklist td).checklist.isSome = true := by
  unfold fixChecklist
  cases hch : td.checklist <;> simp [hch]

lemma fixRepeat_spec (td : TaskData) :
    (fixRepeat td).current = td.current ∧ (fixRepeat td).next = td.next ∧
    (fixRepeat td).previous = td.previous ∧
    (fixRepeat td).notes = td.notes ∧ (fixRepeat td).text = td.text ∧
    (fixRepeat td).checklist = td.checklist ∧
    ∃ a b, (fixRepeat td).rept = .split a b := by
  unfold fixRepeat
  cases hr : td.rept <;> simp [hr]

/-- A successful normalization always lands in `NormalForm`. -/
lemma normalize_ok_normalForm (td td2 : TaskData)
    (h : normalize td = .ok td2) : NormalForm td2 := by
  unfold normalize at h
  cases hfp : fixPrevious (fixNext (fixCurrent td)) with
  | error e => rw [hfp] at h; simp [Except.map] at h
  | ok td1 =>
    rw [hfp] at h
    simp only [Except.map] at h
    cases h
    have hDcur :
        (fixRepeat (fixChecklist (fixText (fixNotes td1)))).current =
          (fixCurrent td).current := by
      rw [(fixRepeat_spec _).1, (fixChecklist_spec _).1, (fixText_spec _).1,
        (fixNotes_spec _).1, (fixPrevious_ok_current_next _ _ hfp).1,
        fixNext_current]
    have hDnext :
        (fixRepeat (fixChecklist (fixText (fixNotes td1)))).next =
          (fixNext (fixCurrent td)).next := by
      rw [(fixRepeat_spec _).2.1, (fixChecklist_spec _).2.1,
        (fixText_spec _).2.1, (fixNotes_spec _).2.1,
        (fixPrevious_ok_current_next _ _ hfp).2]
    have hDprev :
        (fixRepeat (fixChecklist (fixText (fixNotes td1)))).previous =
          td1.previous := by
      rw [(fixRepeat_spec _).2.2.1, (fixChecklist_spec _).2.2.1,
        (fixText_spec _).2.2.1, (fixNotes_spec _).2.2.1]
    refine ⟨?_, ?_, ?_, ?_, ?_, ?_, ?_⟩
    · intro c hc
      rw [hDcur] at hc
      exact fixCurrent_tagged td c hc
    · intro n hn
      rw [hDnext] at hn
      exact fixNext_tagged (fixCurrent td) n hn
    · intro p hp
      rw [hDprev] at hp
      exact fixPrevious_ok_previous _ _ hfp p hp
    · rw [(fixRepeat_spec _).2.2.2.1, (fixChecklist_spec _).2.2.2.2.1,
        (fixText_spec _).2.2.2.2.1]
      exact (fixNotes_spec _).2.2.2.2.2.2
    · rw [(fixRepeat_spec _).2.2.2.2.1, (fixChecklist_spec _).2.2.2.2.2.1]
      exact (fixText_spec _).2.2.2.2.2.2
    · rw [(fixRepeat_spec _).2.2.2.2.2.1]
      exact (fixChecklist_spec _).2.2.2.2.2.2
    · exact (fixRepeat_spec _).2.2.2.2.2.2

lemma replaceUtc_id (t : Ts) (h : t.tz = some utcTag) :
    t.replaceUtc = t := by
  cases t with
  | mk s z =>
    unfold Ts.replaceUtc
    have h2 : z = some utcTag := h
    rw [h2]

lemma fixCurrent_id (td : TaskData)
    (h : ∀ c, td.current = some c → c.created.tz = some utcTag) :
    fixCurrent td = td := by
  unfold fixCurrent
  cases hc : td.current with
  | none => rfl
  | some c =>
    obtain ⟨cid, ccr⟩ := c
    have h2 : ccr.tz = some utcTag := h ⟨cid, ccr⟩ hc
    show { td with current := some (⟨cid, Ts.replaceUtc ccr⟩ : CurrentInfo) } = td
    rw [replaceUtc_id ccr h2, ← hc]

lemma fixNext_id (td : TaskData)
    (h : ∀ n, td.next = some n → n.tz = some utcTag) :
    fixNext td = td := by
  unfold fixNext
  cases hn : td.next with
  | none => rw [Option.map_none', ← hn]
  | some n =>
    rw [Option.map_some', replaceUtc_id n (h n hn), ← hn]

lemma fixPrevious_id (td : TaskData)
    (h : ∀ p, td.previous = some p → p.created.tz = some utcTag ∧
      ∃ ct, p.completed = some ct ∧ ct.tz = some utcTag) :
    fixPrevious td = .ok td := by
  unfold fixPrevious
  split
  · rfl
  · rename_i p hp
    obtain ⟨h1, ct, h2, h3⟩ := h p hp
    split
    · rename_i hco
      rw [h2] at hco
      cases hco
    · rename_i ct2 hco
      rw [h2] at hco
      injection hco with hcc
      subst hcc
      rw [replaceUtc_id p.created h1, replaceUtc_id ct h3, ← h2]
      show Except.ok { td with previous := some p } = Except.ok td
      rw [← hp]

lemma fixNotes_id (td : TaskData) (h : td.notes.isSome = true) :
    fixNotes td = td := by
  unfold fixNotes
  cases hn : td.notes with
  | none => rw [hn] at h; simp at h
  | some x => rfl

lemma fixText_id (td : TaskData) (h : td.text = none) :
    fixText td = td := by
  unfold fixText
  rw [h]

lemma fixChecklist_id (td : TaskData) (h : td.checklist.isSome = true) :
    fixChecklist td = td := by
  unfold fixChecklist
  cases hch : td.checklist with
  | none => rw [hch] at h; simp at h
  | some x => rfl

lemma fixRepeat_id (td : TaskData) (h : ∃ a b, td.rept = .split a b) :
    fixRepeat td = td := by
  obtain ⟨a, b, h⟩ := h
  unfold fixRepeat
  rw [h]

/-- Normalizing a record in normal form is a no-op. -/
lemma normalForm_normalize_eq (td : TaskData) (h : NormalForm td) :
    normalize td = .ok td := by
  obtain ⟨h1, h2, h3, h4, h5, h6, h7⟩ := h
  unfold normalize
  rw [fixCurrent_id td h1, fixNext_id td h2, fixPrevious_id td h3]
  simp only [Except.map]
  rw [fixNotes_id td h4, fixText_id td h5, fixChecklist_id td h6,
    fixRepeat_id td h7]

/-- C8: the back-compatibility normalization (UTC tagging, text→title
rename, checklist defaulting, flat repeat-policy migration) is
idempotent: whenever it succeeds, applying it again to the normalized
record leaves the record unchanged, so running it twice equals running
it once. -/
theorem normalize_idempotent (td td2 : TaskData)
    (h : normalize td = .ok td2) : normalize td2 = .ok td2 :=
  normalForm_normalize_eq td2 (normalize_ok_normalForm td td2 h)

/-- A legacy-shape record exercising every repair: offset-naive
timestamps everywhere, `text` instead of `title`, missing `notes` and
`checklist` keys, and a flat `(min 2, max 5)` repeat policy. -/
def wLegacy : TaskData :=
  { current := some ⟨"id9", ⟨100, none⟩⟩, next := some ⟨200, none⟩,
    previous := some ⟨"id8", ⟨50, none⟩, some ⟨60, none⟩⟩,
    rept := .flat 2 5, title := none, text := some "old name",
    notes := none, checklist := none }

/-- `wLegacy` after one normalization pass. -/
def wLegacyNorm : TaskData :=
  { current := some ⟨"id9", ⟨100, some utcTag⟩⟩,
    next := some ⟨200, some utcTag⟩,
    previous := some ⟨"id8", ⟨50, some utcTag⟩, some ⟨60, some utcTag⟩⟩,
    rept := .split (some ⟨2, 5⟩) none, title := some "old name",
    text := none, notes := some none, checklist := some [] }

theorem normalize_idempotent_witness :
    normalize wLegacyNorm = .ok wLegacyNorm :=
  normalize_idempotent wLegacy wLegacyNorm (by rfl)

end RecurringTasks
